import Mathlib

/-!
Shallow embedding of the balance microservice core (main.go v2.1 and its
withUserLock / depositHandler / withdrawHandler functions): the append-only
transactions ledger, the SQL balance aggregation, the per-user lock wrapper
and the two mutating operations, together with proofs of the specified
properties.

Monetary amounts are modelled as rationals: the ledger column is
DECIMAL(10, 2), an exact fixed-point type, and the balance query sums it
exactly in the database.
-/

namespace BalanceCore

/-- The operation_type column of the transactions table:
'DEPOSIT' or 'WITHDRAW'. -/
inductive OperationType
  | deposit
  | withdraw
deriving DecidableEq, Repr

/-- One row of the append-only transactions table.  The id (SERIAL) and
created_at (TIMESTAMP DEFAULT CURRENT_TIMESTAMP) columns are assigned by the
store and are not read by the balance aggregation, so they are omitted. -/
structure LedgerEntry where
  userID : Int
  amount : ℚ
  kind : OperationType
deriving DecidableEq, Repr

/-- The transactions table, in insertion order (append-only). -/
abbrev Ledger := List LedgerEntry

/-- The CASE expression of the balance query:
CASE WHEN operation_type = 'DEPOSIT' THEN amount
     WHEN operation_type = 'WITHDRAW' THEN -amount END. -/
def signedAmount (e : LedgerEntry) : ℚ :=
  match e.kind with
  | .deposit => e.amount
  | .withdraw => -e.amount

/-- The balance query of withdrawHandler:
SELECT COALESCE(SUM(CASE ... END), 0) FROM transactions WHERE user_id = $1.
COALESCE makes the empty aggregate 0, which is the sum of the empty list. -/
def currentBalance (l : Ledger) (uid : Int) : ℚ :=
  ((l.filter fun e => e.userID == uid).map signedAmount).sum

/-- Sum of the amounts of a user's DEPOSIT rows (stated from the spec's
balance definition, to be compared with currentBalance). -/
def depositSum (l : Ledger) (uid : Int) : ℚ :=
  ((l.filter fun e => e.userID == uid && e.kind == OperationType.deposit).map
    (fun e => e.amount)).sum

/-- Sum of the amounts of a user's WITHDRAW rows (stated from the spec's
balance definition, to be compared with currentBalance). -/
def withdrawSum (l : Ledger) (uid : Int) : ℚ :=
  ((l.filter fun e => e.userID == uid && e.kind == OperationType.withdraw).map
    (fun e => e.amount)).sum

/-- The JSON request body decoded by both handlers:
struct Transaction { UserID int; Amount float64 }. -/
structure Transaction where
  userID : Int
  amount : ℚ
deriving DecidableEq, Repr

/-- Which storage statement failed, identifying the fmt.Errorf site that
wraps the database error. -/
inductive StorageSite
  | depositAppend
  | balanceQuery
  | withdrawAppend
deriving DecidableEq, Repr

/-- The error values the core produces, one constructor per error site of
depositHandler / withdrawHandler / withUserLock:
validationError      = the amount <= 0 rejection;
insufficientFunds    = fmt.Errorf insufficient funds with balance and amount;
lockContention       = fmt.Errorf could not obtain lock (redislock.ErrNotObtained);
lockerNotInitialized = fmt.Errorf locker is not initialized;
obtainFailed         = fmt.Errorf failed to obtain lock, wrapping a backend error;
storageError         = fmt.Errorf wrapping a database error at the given site. -/
inductive OpError
  | validationError
  | insufficientFunds (balance amount : ℚ)
  | lockContention (uid : Int)
  | lockerNotInitialized
  | obtainFailed (detail : String)
  | storageError (site : StorageSite) (detail : String)
deriving DecidableEq, Repr

/-- The five-kind error taxonomy of the specification. -/
inductive ErrorKind
  | validationError
  | insufficientFunds
  | lockContention
  | lockBackendUnavailable
  | storageError
deriving DecidableEq, Repr

/-- Which taxonomy kind each produced error value belongs to.  Both the
nil-locker check and a failing Obtain round-trip are configuration or
infrastructure faults of the lock backend. -/
def OpError.kind : OpError → ErrorKind
  | .validationError => .validationError
  | .insufficientFunds _ _ => .insufficientFunds
  | .lockContention _ => .lockContention
  | .lockerNotInitialized => .lockBackendUnavailable
  | .obtainFailed _ => .lockBackendUnavailable
  | .storageError _ _ => .storageError

/-- Whether distributed locking is enabled (the REDIS_ENABLED flag read at
startup): withUserLock either runs the body unguarded or goes through the
redislock client. -/
inductive LockMode
  | noOpLock
  | distributedLock
deriving DecidableEq, Repr

/-- The possible results of the locker.Obtain round-trip. -/
inductive ObtainOutcome
  | obtained
  | notObtained
  | backendError (detail : String)
deriving DecidableEq, Repr

/-- The environment of one Deposit or Withdraw invocation: the configured
lock mode, the behaviour of the lock backend during this call, and the
behaviour of the database during this call.  Storage failure details stand
for the wrapped driver errors. -/
structure Env where
  mode : LockMode
  lockerInitialized : Bool
  obtainOutcome : ObtainOutcome
  releaseFails : Bool
  balanceReadFails : Bool
  readFailDetail : String
  appendFails : Bool
  appendFailDetail : String
deriving DecidableEq, Repr

/-- Observable atomic events of one invocation, in program order. -/
inductive Event
  | lockAcquired (uid : Int)
  | lockReleaseAttempted (uid : Int) (ok : Bool)
  | balanceRead (uid : Int) (value : ℚ)
  | entryAppended (e : LedgerEntry)
deriving DecidableEq, Repr

instance : DecidableEq (Except OpError Unit) := fun a b =>
  match a, b with
  | .ok (), .ok () => isTrue rfl
  | .ok (), .error _ => isFalse (fun h => Except.noConfusion h)
  | .error _, .ok () => isFalse (fun h => Except.noConfusion h)
  | .error x, .error y =>
    if h : x = y then isTrue (by rw [h]) else isFalse (fun hc => h (by injection hc))

/-- The result of one handler invocation: the ledger afterwards, the
outcome surfaced to the caller, and the trace of events. -/
structure OpResult where
  ledger : Ledger
  outcome : Except OpError Unit
  trace : List Event
deriving DecidableEq, Repr

/-- withUserLock: with Redis disabled the body runs unguarded; with Redis
enabled a nil locker or a failing Obtain aborts before the body, contention
aborts with the could-not-obtain error, and an obtained lock brackets the
body with a deferred Release whose failure is only logged. -/
def withUserLock (env : Env) (uid : Int) (fn : Ledger → OpResult)
    (l : Ledger) : OpResult :=
  match env.mode with
  | .noOpLock => fn l
  | .distributedLock =>
    if env.lockerInitialized then
      match env.obtainOutcome with
      | .notObtained => ⟨l, .error (.lockContention uid), []⟩
      | .backendError d => ⟨l, .error (.obtainFailed d), []⟩
      | .obtained =>
        let r := fn l
        ⟨r.ledger, r.outcome,
          .lockAcquired uid :: (r.trace ++ [.lockReleaseAttempted uid (!env.releaseFails)])⟩
    else
      ⟨l, .error .lockerNotInitialized, []⟩

/-- The critical section of depositHandler: INSERT a DEPOSIT row; a failing
Exec yields the wrapped database error and writes nothing. -/
def depositBody (env : Env) (tx : Transaction) (l : Ledger) : OpResult :=
  if env.appendFails then
    ⟨l, .error (.storageError .depositAppend env.appendFailDetail), []⟩
  else
    ⟨l ++ [⟨tx.userID, tx.amount, .deposit⟩], .ok (),
      [.entryAppended ⟨tx.userID, tx.amount, .deposit⟩]⟩

/-- depositHandler after JSON decoding: reject a non-positive amount before
any lock or database access, otherwise run the append under withUserLock. -/
def depositHandler (env : Env) (tx : Transaction) (l : Ledger) : OpResult :=
  if tx.amount ≤ 0 then
    ⟨l, .error .validationError, []⟩
  else
    withUserLock env tx.userID (depositBody env tx) l

/-- The critical section of withdrawHandler: read the balance (a failing
Scan yields the wrapped error), fail with insufficient funds when
balance < amount, otherwise INSERT a WITHDRAW row. -/
def withdrawBody (env : Env) (tx : Transaction) (l : Ledger) : OpResult :=
  if env.balanceReadFails then
    ⟨l, .error (.storageError .balanceQuery env.readFailDetail), []⟩
  else if currentBalance l tx.userID < tx.amount then
    ⟨l, .error (.insufficientFunds (currentBalance l tx.userID) tx.amount),
      [.balanceRead tx.userID (currentBalance l tx.userID)]⟩
  else if env.appendFails then
    ⟨l, .error (.storageError .withdrawAppend env.appendFailDetail),
      [.balanceRead tx.userID (currentBalance l tx.userID)]⟩
  else
    ⟨l ++ [⟨tx.userID, tx.amount, .withdraw⟩], .ok (),
      [.balanceRead tx.userID (currentBalance l tx.userID),
       .entryAppended ⟨tx.userID, tx.amount, .withdraw⟩]⟩

/-- withdrawHandler after JSON decoding: reject a non-positive amount
before any lock or database access, otherwise run the read-check-append
body under withUserLock. -/
def withdrawHandler (env : Env) (tx : Transaction) (l : Ledger) : OpResult :=
  if tx.amount ≤ 0 then
    ⟨l, .error .validationError, []⟩
  else
    withUserLock env tx.userID (withdrawBody env tx) l

/-- A request to either endpoint. -/
inductive OpRequest
  | deposit (tx : Transaction)
  | withdraw (tx : Transaction)
deriving DecidableEq, Repr

/-- The decoded body of a request. -/
def OpRequest.tx : OpRequest → Transaction
  | .deposit t => t
  | .withdraw t => t

/-- The row a request appends when it succeeds. -/
def OpRequest.entry : OpRequest → LedgerEntry
  | .deposit t => ⟨t.userID, t.amount, .deposit⟩
  | .withdraw t => ⟨t.userID, t.amount, .withdraw⟩

/-- Dispatch one request to its handler. -/
def applyOp (env : Env) (op : OpRequest) (l : Ledger) : OpResult :=
  match op with
  | .deposit tx => depositHandler env tx l
  | .withdraw tx => withdrawHandler env tx l

/-- Run a sequence of requests, each under its own per-call environment,
threading the ledger; also return each request's outcome. -/
def runOps : List (Env × OpRequest) → Ledger →
    Ledger × List (OpRequest × Except OpError Unit)
  | [], l => (l, [])
  | (env, op) :: rest, l =>
    ((runOps rest (applyOp env op l).ledger).1,
     (op, (applyOp env op l).outcome) :: (runOps rest (applyOp env op l).ledger).2)

/-- Whether an outcome was admitted (the handler answered success). -/
def admitted : Except OpError Unit → Bool
  | .ok _ => true
  | .error _ => false

/-- The requests of a run that were admitted. -/
def successfulOps (outs : List (OpRequest × Except OpError Unit)) : List OpRequest :=
  (outs.filter fun p => admitted p.2).map Prod.fst

/-- Total amount a list of requests deposits for one user. -/
def depositTotal (ops : List OpRequest) (uid : Int) : ℚ :=
  (ops.map fun op =>
    match op with
    | .deposit t => if t.userID == uid then t.amount else 0
    | .withdraw _ => 0).sum

/-- Total amount a list of requests withdraws from one user. -/
def withdrawTotal (ops : List OpRequest) (uid : Int) : ℚ :=
  (ops.map fun op =>
    match op with
    | .deposit _ => 0
    | .withdraw t => if t.userID == uid then t.amount else 0).sum

/-- The fixed text each error site formats: the literal part of the
http.Error text or of the fmt.Errorf format string; wrapped details and
formatted numbers follow it in the full message. -/
def OpError.surfaceText : OpError → String
  | .validationError => "Amount must be positive"
  | .insufficientFunds _ _ => "insufficient funds: balance="
  | .lockContention _ => "could not obtain lock for user "
  | .lockerNotInitialized => "locker is not initialized"
  | .obtainFailed _ => "failed to obtain lock: "
  | .storageError .depositAppend _ => "database error (deposit): "
  | .storageError .balanceQuery _ => "failed to get balance: "
  | .storageError .withdrawAppend _ => "database error (withdraw): "

/-- Recover the taxonomy kind from the fixed text of a surfaced message. -/
def classifyMessage (s : String) : Option ErrorKind :=
  if s = "Amount must be positive" then some .validationError
  else if s = "insufficient funds: balance=" then some .insufficientFunds
  else if s = "could not obtain lock for user " then some .lockContention
  else if s = "locker is not initialized" then some .lockBackendUnavailable
  else if s = "failed to obtain lock: " then some .lockBackendUnavailable
  else if s = "database error (deposit): " then some .storageError
  else if s = "failed to get balance: " then some .storageError
  else if s = "database error (withdraw): " then some .storageError
  else none

/-- The same invocation environment with only the release behaviour
replaced. -/
def setReleaseFails (env : Env) (b : Bool) : Env :=
  ⟨env.mode, env.lockerInitialized, env.obtainOutcome, b,
   env.balanceReadFails, env.readFailDetail, env.appendFails, env.appendFailDetail⟩

/-- ttl := 5 * time.Second of withUserLock, in milliseconds. -/
def lockTTLMillis : ℕ := 5000

/-- redislock.LinearBackoff(100 * time.Millisecond): a fixed retry
interval, in milliseconds. -/
def retryIntervalMillis : ℕ := 100

/-- context.WithTimeout(r.Context(), 5*time.Second): the deadline both
handlers attach to the invocation, in milliseconds. -/
def handlerTimeoutMillis : ℕ := 5000

/-- Result of one Obtain call, with the elapsed time (ms since the call
started) at which it returns. -/
inductive AcquireOutcome
  | acquired (t : ℕ)
  | contention (t : ℕ)
deriving DecidableEq, Repr

/-- Elapsed time at which the Obtain call returned. -/
def AcquireOutcome.time : AcquireOutcome → ℕ
  | .acquired t => t
  | .contention t => t

/-- Modelled from the spec: the retry loop of LockCoordinator.Acquire (the
locker.Obtain call that withUserLock configures); the loop body itself
lives in the bsm/redislock dependency, outside this repository.  Attempt n
is made at elapsed time n * interval; when the lock is unavailable the
call sleeps the fixed backoff interval and retries, unless the caller's
deadline would pass during the sleep, in which case it gives up at the
deadline with ErrNotObtained (ContentionError).  The fuel argument only
serves termination; with fuel > deadline / interval the exhaustion branch
is unreachable. -/
def acquireLoop (avail : ℕ → Bool) (deadline interval : ℕ) :
    ℕ → ℕ → AcquireOutcome
  | 0, n => .contention (min (n * interval) deadline)
  | fuel + 1, n =>
    if avail n then .acquired (n * interval)
    else if deadline < (n + 1) * interval then .contention deadline
    else acquireLoop avail deadline interval fuel (n + 1)

theorem currentBalance_nil (uid : Int) : currentBalance [] uid = 0 := rfl

theorem currentBalance_append_single (l : Ledger) (e : LedgerEntry) (uid : Int) :
    currentBalance (l ++ [e]) uid
      = currentBalance l uid + (if e.userID == uid then signedAmount e else 0) := by
  unfold currentBalance
  rw [List.filter_append, List.map_append, List.sum_append]
  cases h : e.userID == uid <;> simp [List.filter, h]

theorem currentBalance_eq_depositSum_sub_withdrawSum (l : Ledger) (uid : Int) :
    currentBalance l uid = depositSum l uid - withdrawSum l uid := by
  induction l with
  | nil => simp [currentBalance, depositSum, withdrawSum]
  | cons e rest ih =>
    unfold currentBalance depositSum withdrawSum at *
    cases he : e.userID == uid <;> cases hk : e.kind <;>
      simp [List.filter_cons, he, hk, signedAmount, ih] <;> ring

theorem withUserLock_ledger_outcome (env : Env) (uid : Int)
    (fn : Ledger → OpResult) (l : Ledger) :
    ((withUserLock env uid fn l).ledger = (fn l).ledger ∧
     (withUserLock env uid fn l).outcome = (fn l).outcome)
    ∨ ((withUserLock env uid fn l).ledger = l ∧
       ∃ e : OpError, (withUserLock env uid fn l).outcome = .error e) := by
  unfold withUserLock
  cases env.mode with
  | noOpLock => exact Or.inl ⟨rfl, rfl⟩
  | distributedLock =>
    cases h : env.lockerInitialized with
    | false => simp [h]
    | true =>
      cases ho : env.obtainOutcome with
      | obtained => simp [h, ho]
      | notObtained => simp [h, ho]
      | backendError d => simp [h, ho]

theorem depositBody_cases (env : Env) (tx : Transaction) (l : Ledger) :
    ((depositBody env tx l).outcome = .ok () ∧
     (depositBody env tx l).ledger = l ++ [⟨tx.userID, tx.amount, .deposit⟩])
    ∨ ((depositBody env tx l).ledger = l ∧
       ∃ e : OpError, (depositBody env tx l).outcome = .error e) := by
  unfold depositBody
  split
  · exact Or.inr ⟨rfl, _, rfl⟩
  · exact Or.inl ⟨rfl, rfl⟩

theorem withdrawBody_cases (env : Env) (tx : Transaction) (l : Ledger) :
    ((withdrawBody env tx l).outcome = .ok () ∧
     (withdrawBody env tx l).ledger = l ++ [⟨tx.userID, tx.amount, .withdraw⟩] ∧
     tx.amount ≤ currentBalance l tx.userID)
    ∨ ((withdrawBody env tx l).ledger = l ∧
       ∃ e : OpError, (withdrawBody env tx l).outcome = .error e) := by
  unfold withdrawBody
  split
  · exact Or.inr ⟨rfl, _, rfl⟩
  · split
    · exact Or.inr ⟨rfl, _, rfl⟩
    · split
      · exact Or.inr ⟨rfl, _, rfl⟩
      · rename_i hnf _
        exact Or.inl ⟨rfl, rfl, le_of_not_lt hnf⟩

theorem depositHandler_cases (env : Env) (tx : Transaction) (l : Ledger) :
    ((depositHandler env tx l).outcome = .ok () ∧
     (depositHandler env tx l).ledger = l ++ [⟨tx.userID, tx.amount, .deposit⟩] ∧
     0 < tx.amount)
    ∨ ((depositHandler env tx l).ledger = l ∧
       ∃ e : OpError, (depositHandler env tx l).outcome = .error e) := by
  unfold depositHandler
  split
  · exact Or.inr ⟨rfl, _, rfl⟩
  · rename_i hv
    rcases withUserLock_ledger_outcome env tx.userID (depositBody env tx) l with
      ⟨hl, ho⟩ | ⟨hl, e, ho⟩
    · rcases depositBody_cases env tx l with ⟨hbo, hbl⟩ | ⟨hbl, e, hbo⟩
      · exact Or.inl ⟨ho.trans hbo, hl.trans hbl, lt_of_not_le hv⟩
      · exact Or.inr ⟨hl.trans hbl, e, ho.trans hbo⟩
    · exact Or.inr ⟨hl, e, ho⟩

theorem withdrawHandler_cases (env : Env) (tx : Transaction) (l : Ledger) :
    ((withdrawHandler env tx l).outcome = .ok () ∧
     (withdrawHandler env tx l).ledger = l ++ [⟨tx.userID, tx.amount, .withdraw⟩] ∧
     0 < tx.amount ∧ tx.amount ≤ currentBalance l tx.userID)
    ∨ ((withdrawHandler env tx l).ledger = l ∧
       ∃ e : OpError, (withdrawHandler env tx l).outcome = .error e) := by
  unfold withdrawHandler
  split
  · exact Or.inr ⟨rfl, _, rfl⟩
  · rename_i hv
    rcases withUserLock_ledger_outcome env tx.userID (withdrawBody env tx) l with
      ⟨hl, ho⟩ | ⟨hl, e, ho⟩
    · rcases withdrawBody_cases env tx l with ⟨hbo, hbl, hble⟩ | ⟨hbl, e, hbo⟩
      · exact Or.inl ⟨ho.trans hbo, hl.trans hbl, lt_of_not_le hv, hble⟩
      · exact Or.inr ⟨hl.trans hbl, e, ho.trans hbo⟩
    · exact Or.inr ⟨hl, e, ho⟩

theorem applyOp_cases (env : Env) (op : OpRequest) (l : Ledger) :
    ((applyOp env op l).outcome = .ok () ∧
     (applyOp env op l).ledger = l ++ [op.entry] ∧
     0 < op.tx.amount ∧
     (match op with
      | .withdraw t => t.amount ≤ currentBalance l t.userID
      | .deposit _ => True))
    ∨ ((applyOp env op l).ledger = l ∧
       ∃ e : OpError, (applyOp env op l).outcome = .error e) := by
  cases op with
  | deposit tx =>
    rcases depositHandler_cases env tx l with ⟨ho, hl, hp⟩ | ⟨hl, e, ho⟩
    · exact Or.inl ⟨ho, hl, hp, trivial⟩
    · exact Or.inr ⟨hl, e, ho⟩
  | withdraw tx =>
    rcases withdrawHandler_cases env tx l with ⟨ho, hl, hp, hle⟩ | ⟨hl, e, ho⟩
    · exact Or.inl ⟨ho, hl, hp, hle⟩
    · exact Or.inr ⟨hl, e, ho⟩

theorem applyOp_nonneg (env : Env) (op : OpRequest) (l : Ledger)
    (h : ∀ uid, 0 ≤ currentBalance l uid) :
    ∀ uid, 0 ≤ currentBalance (applyOp env op l).ledger uid := by
  intro uid
  rcases applyOp_cases env op l with ⟨_, hl, hp, hw⟩ | ⟨hl, _, _⟩
  · rw [hl, currentBalance_append_single]
    cases op with
    | deposit t =>
      simp only [OpRequest.entry, OpRequest.tx] at *
      by_cases he : t.userID = uid
      · simp only [beq_iff_eq, he, if_true, signedAmount]
        exact add_nonneg (h uid) (le_of_lt hp)
      · simp only [beq_iff_eq, he, if_false, add_zero]
        exact h uid
    | withdraw t =>
      simp only [OpRequest.entry, OpRequest.tx] at *
      by_cases he : t.userID = uid
      · subst he
        simp only [beq_iff_eq, if_true, signedAmount]
        linarith [hw]
      · simp only [beq_iff_eq, he, if_false, add_zero]
        exact h uid
  · rw [hl]; exact h uid

theorem runOps_nonneg (steps : List (Env × OpRequest)) (l : Ledger)
    (h : ∀ uid, 0 ≤ currentBalance l uid) :
    ∀ uid, 0 ≤ currentBalance (runOps steps l).1 uid := by
  induction steps generalizing l with
  | nil => simpa [runOps] using h
  | cons s rest ih =>
    obtain ⟨env, op⟩ := s
    simp only [runOps]
    exact ih _ (applyOp_nonneg env op l h)

theorem runOps_balance (steps : List (Env × OpRequest)) (l : Ledger) (uid : Int) :
    currentBalance (runOps steps l).1 uid
      = currentBalance l uid
        + depositTotal (successfulOps (runOps steps l).2) uid
        - withdrawTotal (successfulOps (runOps steps l).2) uid := by
  induction steps generalizing l with
  | nil => simp [runOps, successfulOps, depositTotal, withdrawTotal]
  | cons s rest ih =>
    obtain ⟨env, op⟩ := s
    simp only [runOps]
    rcases applyOp_cases env op l with ⟨ho, hl, _, _⟩ | ⟨hl, e, ho⟩
    · rw [ho, ih, hl, currentBalance_append_single]
      cases op with
      | deposit t =>
        by_cases he : t.userID = uid <;>
          simp [successfulOps, List.filter_cons, admitted, depositTotal,
            withdrawTotal, OpRequest.entry, signedAmount, he] <;> ring
      | withdraw t =>
        by_cases he : t.userID = uid <;>
          simp [successfulOps, List.filter_cons, admitted, depositTotal,
            withdrawTotal, OpRequest.entry, signedAmount, he] <;> ring
    · rw [ho, ih, hl]
      simp [successfulOps, List.filter_cons, admitted]

theorem classify_surface (e : OpError) :
    classifyMessage (OpError.surfaceText e) = some (OpError.kind e) := by
  cases e with
  | storageError site d => cases site <;> rfl
  | validationError => rfl
  | insufficientFunds b a => rfl
  | lockContention u => rfl
  | lockerNotInitialized => rfl
  | obtainFailed d => rfl

theorem withUserLock_releaseFails (env : Env) (b : Bool) (uid : Int)
    (fn : Ledger → OpResult) (l : Ledger) :
    (withUserLock (setReleaseFails env b) uid fn l).outcome
        = (withUserLock env uid fn l).outcome ∧
    (withUserLock (setReleaseFails env b) uid fn l).ledger
        = (withUserLock env uid fn l).ledger := by
  obtain ⟨mode, init, oo, rf, brf, rfd, af, afd⟩ := env
  cases mode <;> cases init <;> cases oo <;>
    simp [withUserLock, setReleaseFails]

theorem applyOp_releaseFails (env : Env) (b : Bool) (op : OpRequest) (l : Ledger) :
    (applyOp (setReleaseFails env b) op l).outcome = (applyOp env op l).outcome ∧
    (applyOp (setReleaseFails env b) op l).ledger = (applyOp env op l).ledger := by
  cases op with
  | deposit tx =>
    simp only [applyOp]
    unfold depositHandler
    split
    · exact ⟨rfl, rfl⟩
    · have hb : depositBody (setReleaseFails env b) tx = depositBody env tx := rfl
      rw [hb]
      exact withUserLock_releaseFails env b tx.userID (depositBody env tx) l
  | withdraw tx =>
    simp only [applyOp]
    unfold withdrawHandler
    split
    · exact ⟨rfl, rfl⟩
    · have hb : withdrawBody (setReleaseFails env b) tx = withdrawBody env tx := rfl
      rw [hb]
      exact withUserLock_releaseFails env b tx.userID (withdrawBody env tx) l

theorem depositBody_trace_no_lock (env : Env) (tx : Transaction) (l : Ledger)
    (uid : Int) : Event.lockAcquired uid ∉ (depositBody env tx l).trace := by
  unfold depositBody
  split <;> simp

theorem withdrawBody_trace_no_lock (env : Env) (tx : Transaction) (l : Ledger)
    (uid : Int) : Event.lockAcquired uid ∉ (withdrawBody env tx l).trace := by
  unfold withdrawBody
  split
  · simp
  · split
    · simp
    · split
      · simp
      · simp

theorem withUserLock_release_after_acquire (env : Env) (uid uid2 : Int)
    (fn : Ledger → OpResult) (l : Ledger)
    (hfn : ∀ u : Int, Event.lockAcquired u ∉ (fn l).trace)
    (h : Event.lockAcquired uid2 ∈ (withUserLock env uid fn l).trace) :
    Event.lockReleaseAttempted uid2 (!env.releaseFails)
      ∈ (withUserLock env uid fn l).trace := by
  obtain ⟨mode, init, oo, rf, brf, rfd, af, afd⟩ := env
  cases mode with
  | noOpLock => exact absurd h (hfn uid2)
  | distributedLock =>
    cases init with
    | false => simp [withUserLock] at h
    | true =>
      cases oo with
      | notObtained => simp [withUserLock] at h
      | backendError d => simp [withUserLock] at h
      | obtained =>
        simp only [withUserLock, if_true] at h ⊢
        rw [List.mem_cons] at h
        rcases h with heq | hmem
        · injection heq with hu
          subst hu
          rw [List.mem_cons]
          right
          exact List.mem_append_right _ (List.mem_singleton.mpr rfl)
        · rw [List.mem_append] at hmem
          rcases hmem with hbody | hrel
          · exact absurd hbody (hfn uid2)
          · rw [List.mem_singleton] at hrel
            exact absurd hrel (by simp)

theorem acquireLoop_time_le (avail : ℕ → Bool) (deadline interval : ℕ) :
    ∀ fuel n, n * interval ≤ deadline →
      (acquireLoop avail deadline interval fuel n).time ≤ deadline := by
  intro fuel
  induction fuel with
  | zero =>
    intro n _
    simpa [acquireLoop, AcquireOutcome.time] using min_le_right (n * interval) deadline
  | succ f ih =>
    intro n h
    unfold acquireLoop
    split
    · simpa [AcquireOutcome.time] using h
    · split
      · simp [AcquireOutcome.time]
      · exact ih (n + 1) (le_of_not_lt (by assumption))

theorem acquireLoop_contention_at_deadline (avail : ℕ → Bool)
    (deadline interval : ℕ) :
    ∀ fuel n t, n * interval ≤ deadline → deadline < (n + fuel) * interval →
      acquireLoop avail deadline interval fuel n = .contention t →
      t = deadline := by
  intro fuel
  induction fuel with
  | zero =>
    intro n t hle hlt
    rw [Nat.add_zero] at hlt
    exact absurd hle (not_le.mpr hlt)
  | succ f ih =>
    intro n t hle hlt heq
    unfold acquireLoop at heq
    rcases Decidable.em (avail n = true) with ha | ha
    · rw [if_pos ha] at heq
      exact absurd heq (by simp)
    · rw [if_neg ha] at heq
      rcases Decidable.em (deadline < (n + 1) * interval) with hd | hd
      · rw [if_pos hd] at heq
        injection heq with ht
        exact ht.symm
      · rw [if_neg hd] at heq
        refine ih (n + 1) t (le_of_not_lt hd) ?_ heq
        have : n + 1 + f = n + (f + 1) := by ring
        rw [this]
        exact hlt

/-- Claim C1: a Withdraw with amount > 0 against a derived balance below
the amount fails with the InsufficientFunds error and appends no ledger
entry; under the distributed lock the balance read and the check — and any
append that would follow — run strictly between the lock acquisition and
the release of the same invocation, as the trace shows. -/
theorem C1_withdraw_insufficient_atomic (env : Env) (tx : Transaction)
    (l : Ledger) (hm : env.mode = .distributedLock)
    (hi : env.lockerInitialized = true) (hoo : env.obtainOutcome = .obtained)
    (hbr : env.balanceReadFails = false) (hpos : 0 < tx.amount)
    (hlt : currentBalance l tx.userID < tx.amount) :
    (withdrawHandler env tx l).outcome
        = .error (.insufficientFunds (currentBalance l tx.userID) tx.amount) ∧
    (withdrawHandler env tx l).ledger = l ∧
    (withdrawHandler env tx l).trace
        = [.lockAcquired tx.userID,
           .balanceRead tx.userID (currentBalance l tx.userID),
           .lockReleaseAttempted tx.userID (!env.releaseFails)] := by
  obtain ⟨mode, init, oo, rf, brf, rfd, af, afd⟩ := env
  dsimp only at hm hi hoo hbr ⊢
  subst hm
  subst hi
  subst hoo
  subst hbr
  refine ⟨?_, ?_, ?_⟩ <;>
    simp [withdrawHandler, withUserLock, withdrawBody, hlt, not_le.mpr hpos]

/-- Claim C1 witness: the insufficient-funds rejection at a concrete
input, with the read-check bracketed by the lock events. -/
theorem C1_witness :
    (withdrawHandler ⟨.distributedLock, true, .obtained, false, false, "", false, ""⟩
        ⟨1, 5⟩ []).outcome
      = .error (.insufficientFunds (currentBalance [] 1) 5) ∧
    (withdrawHandler ⟨.distributedLock, true, .obtained, false, false, "", false, ""⟩
        ⟨1, 5⟩ []).ledger = [] ∧
    (withdrawHandler ⟨.distributedLock, true, .obtained, false, false, "", false, ""⟩
        ⟨1, 5⟩ []).trace
      = [.lockAcquired 1, .balanceRead 1 (currentBalance [] 1),
         .lockReleaseAttempted 1
           (!(⟨.distributedLock, true, .obtained, false, false, "", false, ""⟩ : Env).releaseFails)] :=
  C1_withdraw_insufficient_atomic
    ⟨.distributedLock, true, .obtained, false, false, "", false, ""⟩ ⟨1, 5⟩ []
    rfl rfl rfl rfl (by norm_num) (by norm_num [currentBalance])

/-- Claim C2: after any sequence of deposit and withdraw requests
processed by the core from the empty ledger — each admitted or rejected as
the handlers decide, under arbitrary per-call lock and storage behaviour —
every user's derived balance is non-negative. -/
theorem C2_balance_nonneg (steps : List (Env × OpRequest)) (uid : Int) :
    0 ≤ currentBalance (runOps steps []).1 uid :=
  runOps_nonneg steps [] (fun u => le_of_eq (currentBalance_nil u).symm) uid

/-- Claim C3: currentBalance equals the sum of the user's DEPOSIT amounts
minus the sum of the user's WITHDRAW amounts, and equals 0 for a user with
no rows. -/
theorem C3_currentBalance_aggregation (l : Ledger) (uid : Int) :
    currentBalance l uid = depositSum l uid - withdrawSum l uid ∧
    ((l.filter fun e => e.userID == uid) = [] → currentBalance l uid = 0) := by
  refine ⟨currentBalance_eq_depositSum_sub_withdrawSum l uid, fun h => ?_⟩
  unfold currentBalance
  rw [h]
  rfl

/-- Claim C3 witness: a user with no rows has balance 0. -/
theorem C3_witness : currentBalance [⟨1, 3, .deposit⟩] 2 = 0 :=
  (C3_currentBalance_aggregation [⟨1, 3, .deposit⟩] 2).2 (by decide)

/-- Claim C4: a Deposit or Withdraw whose amount is ≤ 0 is rejected with
the ValidationError before withUserLock runs: in every environment (both
lock modes) the result is the unchanged ledger, the validation error, and
an empty trace — no lock event and no ledger access. -/
theorem C4_validation_rejection (env : Env) (tx : Transaction) (l : Ledger)
    (h : tx.amount ≤ 0) :
    depositHandler env tx l = ⟨l, .error .validationError, []⟩ ∧
    withdrawHandler env tx l = ⟨l, .error .validationError, []⟩ := by
  unfold depositHandler withdrawHandler
  rw [if_pos h, if_pos h]
  exact ⟨rfl, rfl⟩

/-- Claim C4 witness: the rejection of a negative amount under the
distributed-lock environment. -/
theorem C4_witness :
    depositHandler ⟨.distributedLock, true, .obtained, false, false, "", false, ""⟩
        ⟨7, -2⟩ [] = ⟨[], .error .validationError, []⟩ ∧
    withdrawHandler ⟨.distributedLock, true, .obtained, false, false, "", false, ""⟩
        ⟨7, -2⟩ [] = ⟨[], .error .validationError, []⟩ :=
  C4_validation_rejection
    ⟨.distributedLock, true, .obtained, false, false, "", false, ""⟩ ⟨7, -2⟩ []
    (by norm_num)

/-- Claim C5: whenever an invocation acquires the lock, a release is
attempted before it returns, on every exit path; and whether the release
fails changes neither the outcome nor the ledger. -/
theorem C5_release_on_every_path (env : Env) (op : OpRequest) (l : Ledger)
    (b : Bool) (uid : Int)
    (h : Event.lockAcquired uid ∈ (applyOp env op l).trace) :
    Event.lockReleaseAttempted uid (!env.releaseFails) ∈ (applyOp env op l).trace ∧
    (applyOp (setReleaseFails env b) op l).outcome = (applyOp env op l).outcome ∧
    (applyOp (setReleaseFails env b) op l).ledger = (applyOp env op l).ledger := by
  refine ⟨?_, applyOp_releaseFails env b op l⟩
  cases op with
  | deposit tx =>
    dsimp only [applyOp] at h ⊢
    unfold depositHandler at h ⊢
    rcases Decidable.em (tx.amount ≤ 0) with hv | hv
    · rw [if_pos hv] at h
      simp at h
    · rw [if_neg hv] at h ⊢
      exact withUserLock_release_after_acquire _ tx.userID uid _ l
        (fun u => depositBody_trace_no_lock _ tx l u) h
  | withdraw tx =>
    dsimp only [applyOp] at h ⊢
    unfold withdrawHandler at h ⊢
    rcases Decidable.em (tx.amount ≤ 0) with hv | hv
    · rw [if_pos hv] at h
      simp at h
    · rw [if_neg hv] at h ⊢
      exact withUserLock_release_after_acquire _ tx.userID uid _ l
        (fun u => withdrawBody_trace_no_lock _ tx l u) h

/-- Claim C5 witness: a concrete deposit that acquires the distributed
lock attempts the release, and a failing release leaves outcome and ledger
unchanged. -/
theorem C5_witness :
    Event.lockReleaseAttempted 1
        (!(⟨.distributedLock, true, .obtained, false, false, "", false, ""⟩ : Env).releaseFails)
      ∈ (applyOp ⟨.distributedLock, true, .obtained, false, false, "", false, ""⟩
          (.deposit ⟨1, 5⟩) []).trace ∧
    (applyOp (setReleaseFails ⟨.distributedLock, true, .obtained, false, false, "", false, ""⟩ true)
        (.deposit ⟨1, 5⟩) []).outcome
      = (applyOp ⟨.distributedLock, true, .obtained, false, false, "", false, ""⟩
          (.deposit ⟨1, 5⟩) []).outcome ∧
    (applyOp (setReleaseFails ⟨.distributedLock, true, .obtained, false, false, "", false, ""⟩ true)
        (.deposit ⟨1, 5⟩) []).ledger
      = (applyOp ⟨.distributedLock, true, .obtained, false, false, "", false, ""⟩
          (.deposit ⟨1, 5⟩) []).ledger :=
  C5_release_on_every_path
    ⟨.distributedLock, true, .obtained, false, false, "", false, ""⟩
    (.deposit ⟨1, 5⟩) [] true 1 (by decide)

/-- Claim C6: every error value a Deposit or Withdraw call surfaces
carries a fixed message text from which its taxonomy kind is recoverable,
so each of the five kinds is distinguishable from the other four at the
core boundary. -/
theorem C6_errors_distinguishable (env : Env) (op : OpRequest) (l : Ledger)
    (e : OpError) (h : (applyOp env op l).outcome = .error e) :
    classifyMessage (OpError.surfaceText e) = some (OpError.kind e) ∧
    ∀ e2 : OpError, OpError.kind e2 ≠ OpError.kind e →
      OpError.surfaceText e2 ≠ OpError.surfaceText e := by
  refine ⟨classify_surface e, fun e2 hne hst => hne ?_⟩
  have h2 := classify_surface e2
  rw [hst, classify_surface e] at h2
  exact (Option.some.inj h2).symm

/-- Claim C6 witness: a produced validation error is classified as such,
and a lock-contention error's fixed text differs from it. -/
theorem C6_witness :
    classifyMessage (OpError.surfaceText .validationError)
        = some (OpError.kind .validationError) ∧
    OpError.surfaceText (.lockContention 1) ≠ OpError.surfaceText .validationError :=
  ⟨(C6_errors_distinguishable
      ⟨.noOpLock, false, .obtained, false, false, "", false, ""⟩
      (.withdraw ⟨1, -1⟩) [] .validationError (by decide)).1,
   (C6_errors_distinguishable
      ⟨.noOpLock, false, .obtained, false, false, "", false, ""⟩
      (.withdraw ⟨1, -1⟩) [] .validationError (by decide)).2
     (.lockContention 1) (by decide)⟩

/-- Claim C7: with distributed locking enabled but the locker
uninitialized or the Obtain round-trip failing, a positive-amount Deposit
or Withdraw fails with a LockBackendUnavailable-kind error, leaves the
ledger unchanged, and executes nothing of the critical section (the event
trace is empty). -/
theorem C7_backend_unavailable (env : Env) (op : OpRequest) (l : Ledger)
    (hm : env.mode = .distributedLock)
    (hbad : env.lockerInitialized = false ∨
      ∃ d, env.obtainOutcome = .backendError d)
    (hpos : 0 < op.tx.amount) :
    (∃ e, (applyOp env op l).outcome = .error e ∧
      OpError.kind e = .lockBackendUnavailable) ∧
    (applyOp env op l).ledger = l ∧
    (applyOp env op l).trace = [] := by
  obtain ⟨mode, init, oo, rf, brf, rfd, af, afd⟩ := env
  dsimp only at hm hbad
  subst hm
  cases op with
  | deposit tx =>
    dsimp only [OpRequest.tx] at hpos
    dsimp only [applyOp]
    unfold depositHandler withUserLock
    rw [if_neg (not_le.mpr hpos)]
    cases init with
    | false => exact ⟨⟨.lockerNotInitialized, rfl, rfl⟩, rfl, rfl⟩
    | true =>
      rcases hbad with hf | ⟨d, hoo⟩
      · exact absurd hf (by simp)
      · subst hoo
        exact ⟨⟨.obtainFailed d, rfl, rfl⟩, rfl, rfl⟩
  | withdraw tx =>
    dsimp only [OpRequest.tx] at hpos
    dsimp only [applyOp]
    unfold withdrawHandler withUserLock
    rw [if_neg (not_le.mpr hpos)]
    cases init with
    | false => exact ⟨⟨.lockerNotInitialized, rfl, rfl⟩, rfl, rfl⟩
    | true =>
      rcases hbad with hf | ⟨d, hoo⟩
      · exact absurd hf (by simp)
      · subst hoo
        exact ⟨⟨.obtainFailed d, rfl, rfl⟩, rfl, rfl⟩

/-- Claim C7 witness: an uninitialized locker under distributed mode fails
a concrete deposit with a backend-unavailable-kind error and an empty
trace. -/
theorem C7_witness :
    (∃ e, (applyOp ⟨.distributedLock, false, .obtained, false, false, "", false, ""⟩
        (.deposit ⟨1, 5⟩) []).outcome = .error e ∧
      OpError.kind e = .lockBackendUnavailable) ∧
    (applyOp ⟨.distributedLock, false, .obtained, false, false, "", false, ""⟩
        (.deposit ⟨1, 5⟩) []).ledger = [] ∧
    (applyOp ⟨.distributedLock, false, .obtained, false, false, "", false, ""⟩
        (.deposit ⟨1, 5⟩) []).trace = [] :=
  C7_backend_unavailable
    ⟨.distributedLock, false, .obtained, false, false, "", false, ""⟩
    (.deposit ⟨1, 5⟩) [] rfl (Or.inl rfl) (by norm_num [OpRequest.tx])

/-- Claim C8: from the empty ledger, after any run of requests the derived
balance of each user equals exactly the total amount of that user's
successful deposits minus the total of the successful withdrawals — the
rational (DECIMAL-valued) arithmetic is exact. -/
theorem C8_conservation (steps : List (Env × OpRequest)) (uid : Int) :
    currentBalance (runOps steps []).1 uid
      = depositTotal (successfulOps (runOps steps []).2) uid
        - withdrawTotal (successfulOps (runOps steps []).2) uid := by
  have h := runOps_balance steps [] uid
  rw [currentBalance_nil] at h
  rw [h]
  ring

/-- Claim C9: the Obtain retry loop as configured by withUserLock — fixed
100 ms backoff, 5 s caller deadline, 5 s TTL — returns no later than the
caller's deadline for every availability pattern, and when it returns
ContentionError it does so exactly at the deadline, which does not exceed
the lock TTL. -/
theorem C9_acquire_bounded (avail : ℕ → Bool) :
    (acquireLoop avail handlerTimeoutMillis retryIntervalMillis 51 0).time
        ≤ handlerTimeoutMillis ∧
    ∀ t, acquireLoop avail handlerTimeoutMillis retryIntervalMillis 51 0
        = .contention t → t = handlerTimeoutMillis ∧ t ≤ lockTTLMillis := by
  constructor
  · exact acquireLoop_time_le avail handlerTimeoutMillis retryIntervalMillis 51 0
      (by norm_num [handlerTimeoutMillis, retryIntervalMillis])
  · intro t ht
    have heq := acquireLoop_contention_at_deadline avail handlerTimeoutMillis
      retryIntervalMillis 51 0 t
      (by norm_num [handlerTimeoutMillis, retryIntervalMillis])
      (by norm_num [handlerTimeoutMillis, retryIntervalMillis]) ht
    refine ⟨heq, ?_⟩
    rw [heq]
    norm_num [handlerTimeoutMillis, lockTTLMillis]

/-- Claim C9 witness: under permanent contention the loop gives up exactly
at the 5 s deadline, within the TTL. -/
theorem C9_witness :
    (5000 = handlerTimeoutMillis ∧ 5000 ≤ lockTTLMillis) :=
  (C9_acquire_bounded (fun _ => false)).2 5000 (by decide)

/-- Claim C10: a Withdraw whose amount equals the positive derived balance
is admitted — the insufficient-funds comparison is strict — appends the
WITHDRAW row, and leaves the derived balance exactly 0. -/
theorem C10_withdraw_exact_balance (env : Env) (tx : Transaction) (l : Ledger)
    (hlock : env.mode = .noOpLock ∨
      (env.mode = .distributedLock ∧ env.lockerInitialized = true ∧
       env.obtainOutcome = .obtained))
    (hbr : env.balanceReadFails = false) (haf : env.appendFails = false)
    (hpos : 0 < tx.amount) (heq : currentBalance l tx.userID = tx.amount) :
    (withdrawHandler env tx l).outcome = .ok () ∧
    (withdrawHandler env tx l).ledger = l ++ [⟨tx.userID, tx.amount, .withdraw⟩] ∧
    currentBalance (withdrawHandler env tx l).ledger tx.userID = 0 := by
  obtain ⟨mode, init, oo, rf, brf, rfd, af, afd⟩ := env
  dsimp only at hlock hbr haf
  subst hbr
  subst haf
  have hnl : ¬(currentBalance l tx.userID < tx.amount) := by
    rw [heq]
    exact lt_irrefl tx.amount
  have hb : withdrawBody ⟨mode, init, oo, rf, false, rfd, false, afd⟩ tx l
      = ⟨l ++ [⟨tx.userID, tx.amount, .withdraw⟩], .ok (),
         [.balanceRead tx.userID (currentBalance l tx.userID),
          .entryAppended ⟨tx.userID, tx.amount, .withdraw⟩]⟩ := by
    unfold withdrawBody
    simp [hnl]
  have hball : currentBalance (l ++ [⟨tx.userID, tx.amount, .withdraw⟩]) tx.userID = 0 := by
    rw [currentBalance_append_single, heq]
    simp [signedAmount]
  rcases hlock with hm | ⟨hm, hi, hoo⟩
  · subst hm
    unfold withdrawHandler withUserLock
    rw [if_neg (not_le.mpr hpos)]
    dsimp only
    rw [hb]
    exact ⟨rfl, rfl, hball⟩
  · subst hm
    subst hi
    subst hoo
    unfold withdrawHandler withUserLock
    rw [if_neg (not_le.mpr hpos)]
    dsimp only
    rw [hb]
    exact ⟨rfl, rfl, hball⟩

/-- Claim C10 witness: withdrawing exactly the whole balance succeeds and
zeroes it. -/
theorem C10_witness :
    (withdrawHandler ⟨.noOpLock, false, .obtained, false, false, "", false, ""⟩
        ⟨1, 5⟩ [⟨1, 5, .deposit⟩]).outcome = .ok () ∧
    (withdrawHandler ⟨.noOpLock, false, .obtained, false, false, "", false, ""⟩
        ⟨1, 5⟩ [⟨1, 5, .deposit⟩]).ledger
      = [⟨1, 5, .deposit⟩] ++ [⟨1, 5, .withdraw⟩] ∧
    currentBalance (withdrawHandler ⟨.noOpLock, false, .obtained, false, false, "", false, ""⟩
        ⟨1, 5⟩ [⟨1, 5, .deposit⟩]).ledger 1 = 0 :=
  C10_withdraw_exact_balance
    ⟨.noOpLock, false, .obtained, false, false, "", false, ""⟩
    ⟨1, 5⟩ [⟨1, 5, .deposit⟩] (Or.inl rfl) rfl rfl (by norm_num)
    (by norm_num [currentBalance, signedAmount])

end BalanceCore
